import Mathlib

/-
  Verification development for the llm-chain agent/tool core.

  Text is modelled as List Char; positions returned by findSub are character
  indices, which coincide with the byte indices produced by str::find in the
  source on ASCII text (all default markers are ASCII).
-/

namespace LlmChain

/-- Model of str::find for a needle inside a haystack: index of the first
occurrence, or none. -/
def findSub (needle : List Char) : List Char → Option Nat
  | [] => if needle.isPrefixOf ([] : List Char) then some 0 else none
  | c :: rest =>
    if needle.isPrefixOf (c :: rest) then some 0
    else (findSub needle rest).map (· + 1)

/-- Model of str::trim (whitespace stripped from both ends). -/
def trimChars (s : List Char) : List Char :=
  ((s.dropWhile Char.isWhitespace).reverse.dropWhile Char.isWhitespace).reverse

/-- Model of AgentAction from the agents module (the struct itself lives
outside src; its shape is fixed by the spec data model and by its uses in
conversational.rs): tool name, raw tool input, and the verbatim log text. -/
structure AgentAction where
  tool : List Char
  tool_input : List Char
  log : List Char
deriving DecidableEq, Repr

/-- Model of AgentFinish: return values as an ordered string-to-string
mapping (the parameters macro with one key yields a one-entry mapping),
plus the verbatim log text. -/
structure AgentFinish where
  return_values : List (List Char × List Char)
  log : List Char
deriving DecidableEq, Repr

/-- Model of AgentDecision: the sum of Action and Finish. -/
inductive AgentDecision where
  | Action (a : AgentAction)
  | Finish (f : AgentFinish)
deriving DecidableEq, Repr

/-- Model of ParserError: wraps the offending text. -/
structure ParserError where
  text : List Char
deriving DecidableEq, Repr

/-- Model of ConversationalOutputParser. Field names in the source are
followup_prefix, intermediate_answer_prefix and acceptable_finish_prefixes;
they are renamed here to Marker forms. -/
structure ConversationalOutputParser where
  followupMarker : List Char
  intermediateAnswerMarker : List Char
  acceptableFinishMarkers : List (List Char)

/-- Model of ConversationalOutputParser::default. -/
def ConversationalOutputParser.default : ConversationalOutputParser :=
  { followupMarker := "Follow up:".data
    intermediateAnswerMarker := "Intermediate Answer:".data
    acceptableFinishMarkers :=
      [ "Final answer:".data
      , "So the final answer is:".data
      , "So the final answer could be:".data ] }

/-- Model of the find_map scan in parse: the first marker, in list order,
that occurs anywhere in the text, together with the index of its first
occurrence. -/
def firstFoundMarker : List (List Char) → List Char → Option (Nat × List Char)
  | [], _ => none
  | m :: ms, text =>
    match findSub m text with
    | some idx => some (idx, m)
    | none => firstFoundMarker ms text

/-- Model of ConversationalOutputParser::parse. The result none models a
panic: when the intermediate-answer marker occurs before the end of the
follow-up marker, the source computes
intermediate_answer_idx - (followup_idx + followup_prefix.len()) on usize,
which underflows (a panic under debug assertions). All other outcomes are
some: ok with the decision, or error with ParserError(text). -/
def ConversationalOutputParser.parse (p : ConversationalOutputParser)
    (text : List Char) : Option (Except ParserError AgentDecision) :=
  match findSub p.followupMarker text with
  | some followup_idx =>
    match findSub p.intermediateAnswerMarker text with
    | some intermediate_answer_idx =>
      if followup_idx + p.followupMarker.length ≤ intermediate_answer_idx then
        let followup_question :=
          trimChars ((text.drop (followup_idx + p.followupMarker.length)).take
            (intermediate_answer_idx - (followup_idx + p.followupMarker.length)))
        let log := text.take intermediate_answer_idx
        some (.ok (.Action
          { tool := "Intermediate Answer".data
            tool_input := followup_question
            log := log }))
      else
        none
    | none => some (.error ⟨text⟩)
  | none =>
    match firstFoundMarker p.acceptableFinishMarkers text with
    | some (idx, m) =>
      some (.ok (.Finish
        { return_values := [("output".data, trimChars (text.drop (idx + m.length)))]
          log := text }))
    | none => some (.error ⟨text⟩)

/-- Spec-side notion for C2: among all finish markers occurring in the text,
the one whose first occurrence has the smallest index (ties broken by
priority order). -/
def earliestMarker (markers : List (List Char)) (text : List Char) :
    Option (Nat × List Char) :=
  markers.foldl
    (fun best m =>
      match findSub m text, best with
      | some idx, none => some (idx, m)
      | some idx, some (bidx, bm) =>
        if idx < bidx then some (idx, m) else some (bidx, bm)
      | none, b => b)
    none

/-- Model of EarlyStoppingConfig (the struct lives outside src; its shape is
fixed by the spec data model and by should_continue in conversational.rs).
Seconds, f64 in the source, are modelled as rationals; the comparisons used
agree with f64 comparisons on ordinary finite values. -/
structure EarlyStoppingConfig where
  max_iterations : Option Nat
  max_time_elapsed_seconds : Option ℚ

/-- Model of the Agent struct: the executor and tool collection are
abstracted away (they enter the run model as oracles); the fields obsMark
and llmMark carry the observation and llm marker strings of the source. -/
structure Agent where
  early_stopping_config : EarlyStoppingConfig
  obsMark : List Char
  llmMark : List Char
  outParser : ConversationalOutputParser

/-- Model of Agent::new: fixes the observation marker, the llm marker and
the default output parser. -/
def Agent.new (cfg : EarlyStoppingConfig) : Agent :=
  { early_stopping_config := cfg
    obsMark := "Intermediate answer: ".data
    llmMark := "".data
    outParser := ConversationalOutputParser.default }

/-- Model of Agent::should_continue. -/
def Agent.should_continue (a : Agent) (iterations_elapsed : Nat)
    (time_elapsed_seconds : ℚ) : Bool :=
  match a.early_stopping_config.max_iterations,
        a.early_stopping_config.max_time_elapsed_seconds with
  | none, none => true
  | none, some mt => decide (mt ≥ time_elapsed_seconds)
  | some mi, none => decide (mi ≥ iterations_elapsed)
  | some mi, some mt =>
    decide (mi ≥ iterations_elapsed) && decide (mt ≥ time_elapsed_seconds)

/-- Model of AgentIntermediateStep: the action and the observation returned
by the invoked tool. The observation is optional text because the source
reads it with as_str().unwrap_or_default(). -/
structure AgentIntermediateStep where
  action : AgentAction
  observation : Option (List Char)
deriving DecidableEq, Repr

/-- Model of Agent::build_agent_scratchpad: a fold over the steps; each step
appends its action log and then the formatted observation line. -/
def Agent.build_agent_scratchpad (a : Agent)
    (intermediate_steps : List AgentIntermediateStep) : List Char :=
  intermediate_steps.foldl
    (fun scratchpad s =>
      (scratchpad ++ s.action.log) ++
        ('\n' :: (a.obsMark ++ (s.observation.getD []) ++ '\n' :: a.llmMark)))
    []

/-- Spec-side chunk for one intermediate step: the action log followed by an
observation line made of the observation marker, the observation text and
the llm marker. -/
def scratchChunk (a : Agent) (s : AgentIntermediateStep) : List Char :=
  s.action.log ++ '\n' :: (a.obsMark ++ (s.observation.getD []) ++ '\n' :: a.llmMark)

/-- Outcome of one take_next_step call, abstracting the executor, the parser
and the tool collection: an Action round that produced a step, a Finish
decision, or a propagated round error. -/
inductive RoundOutcome where
  | step (s : AgentIntermediateStep)
  | finish (f : AgentFinish)
  | fail
deriving Repr

/-- Errors Agent::run can return in this model. -/
inductive RunError where
  | roundError
  | runtimeExceeded (time_elapsed_seconds : ℚ) (iterations_elapsed : Nat)
deriving DecidableEq, Repr

/-- Result of Agent::run: the finish value with the transcript, or an error. -/
inductive RunResult where
  | ok (f : AgentFinish) (steps : List AgentIntermediateStep)
  | err (e : RunError)
deriving DecidableEq, Repr

/-- Model of the while loop in Agent::run. The oracle gives the outcome of
take_next_step for each round index; elapsed gives the wall-clock reading
taken right after each round. Fuel bounds the recursion; (none, n) means
fuel ran out after n rounds. The second component counts planning rounds
actually invoked. -/
def runAux (a : Agent) (oracle : Nat → RoundOutcome) (elapsed : Nat → ℚ) :
    Nat → List AgentIntermediateStep → Nat → ℚ → Option RunResult × Nat
  | 0, _, _, _ => (none, 0)
  | fuel + 1, intermediate_steps, iterations, full_duration =>
    if a.should_continue iterations full_duration then
      match oracle iterations with
      | .fail => (some (.err .roundError), 1)
      | .finish f => (some (.ok f intermediate_steps), 1)
      | .step s =>
        let r := runAux a oracle elapsed fuel (intermediate_steps ++ [s])
          (iterations + 1) (elapsed iterations)
        (r.1, r.2 + 1)
    else
      (some (.err (.runtimeExceeded full_duration iterations)), 0)

/-- Model of Agent::run: start with an empty transcript, zero iterations and
zero duration. -/
def Agent.run (a : Agent) (oracle : Nat → RoundOutcome) (elapsed : Nat → ℚ)
    (fuel : Nat) : Option RunResult × Nat :=
  runAux a oracle elapsed fuel [] 0 0

/-- Insertion into an association list, modelling HashMap::insert: replace
the value when the key is present, otherwise append the pair. -/
def insertKV {α : Type} (k : List Char) (v : α) :
    List (List Char × α) → List (List Char × α)
  | [] => [(k, v)]
  | (k₀, v₀) :: rest =>
    if k = k₀ then (k, v) :: rest else (k₀, v₀) :: insertKV k v rest

/-- Lookup in an association list, modelling HashMap::get. -/
def lookupKV {α : Type} (k : List Char) :
    List (List Char × α) → Option α
  | [] => none
  | (k₀, v₀) :: rest => if k = k₀ then some v₀ else lookupKV k rest

/-- Model of a boxed dyn Tool value held by the Toolbox: a call function
from message text to text or a typed error. -/
structure DynTool (ε : Type) where
  call : List Char → Except ε (List Char)

/-- Model of the Toolbox struct: the name-to-tool map. -/
structure Toolbox (ε : Type) where
  tools : List (List Char × DynTool ε)

/-- A freshly constructed Toolbox has an empty map. -/
def Toolbox.empty (ε : Type) : Toolbox ε := ⟨[]⟩

/-- Model of Toolbox::add_tool: the source inserts under the constant key
"abc", ignoring the tool. -/
def Toolbox.add_tool {ε : Type} (tb : Toolbox ε) (tool : DynTool ε) :
    Toolbox ε :=
  ⟨insertKV "abc".data tool tb.tools⟩

/-- Model of Toolbox::invoke. The source returns None when the name is
absent; when a tool is found it calls the tool and then hits todo macros on
both arms of the match, so the found branch is a panic, modelled by the
outer none. Option (Option (Except ε text)) mirrors
panic-or-(Option of Result). -/
def Toolbox.invoke {ε : Type} (tb : Toolbox ε) (name : List Char)
    (message : List Char) : Option (Option (Except ε (List Char))) :=
  match lookupKV name tb.tools with
  | some tool =>
    match tool.call message with
    | .ok _ => none
    | .error _ => none
  | none => some none

/-- Model of one argument extractor (FromContext::from_context followed by
the to_string applied to its error at the use site): request text and state
to a typed value or error text. -/
def Extractor (σ α : Type) : Type := List Char → σ → Except (List Char) α

/-- Model of the argument-extraction sequence generated by the handler
macro: each extractor runs on the same request text and the same state, in
order; the first failure short-circuits. -/
def extractAll {σ α : Type} (extractors : List (Extractor σ α))
    (req : List Char) (state : σ) : Except (List Char) (List α) :=
  match extractors with
  | [] => .ok []
  | ex :: rest =>
    match ex req state with
    | .error e => .error e
    | .ok v =>
      match extractAll rest req state with
      | .error e => .error e
      | .ok vs => .ok (v :: vs)

/-- Model of Handler::call from the handler macro: run all extractors; on
any extraction failure return Ok of the failure text without invoking the
wrapped function; otherwise invoke the function and stringify its success,
passing its typed error through. -/
def handlerCall {σ α ε ρ : Type} (extractors : List (Extractor σ α))
    (f : List α → Except ε ρ) (toStrR : ρ → List Char)
    (req : List Char) (state : σ) : Except ε (List Char) :=
  match extractAll extractors req state with
  | .error e => .ok e
  | .ok args =>
    match f args with
    | .ok val => .ok (toStrR val)
    | .error err => .error err

/-- Model of Tool::call for HandlerService: both the success and the error
outcome of the underlying handler are returned as Ok text. -/
def handlerServiceCall {σ α ε ρ : Type} (extractors : List (Extractor σ α))
    (f : List α → Except ε ρ) (toStrR : ρ → List Char)
    (toStrE : ε → List Char) (state : σ) (message : List Char) :
    Except ε (List Char) :=
  match handlerCall extractors f toStrR message state with
  | .ok val => .ok val
  | .error e => .ok (toStrE e)

/-- Model of Handler::call for PipedFn from the pipe-handler macro: after
extraction, the first function runs and its entire result, of arbitrary
type ρ₁, is handed to the second function; the second function's success is
stringified and its error passed through. -/
def pipedHandlerCall {σ α ρ₁ ε₂ ρ₂ : Type} (extractors : List (Extractor σ α))
    (fn1 : List α → ρ₁) (fn2 : ρ₁ → Except ε₂ ρ₂) (toStrR : ρ₂ → List Char)
    (message : List Char) (state : σ) : Except ε₂ (List Char) :=
  match extractAll extractors message state with
  | .error e => .ok e
  | .ok args =>
    match fn2 (fn1 args) with
    | .ok v => .ok (toStrR v)
    | .error e => .error e

/-- Model of FormatPart. -/
structure FormatPart where
  key : List Char
  purpose : List Char
deriving DecidableEq, Repr

/-- Model of Format. -/
structure Format where
  parts : List FormatPart
deriving DecidableEq, Repr

/-- Model of the Describe trait: a Format statically associated with a
type. -/
class Describe (γ : Type) where
  fmt : Format

/-- The Format of a type under its Describe instance. -/
def describeOf (γ : Type) [d : Describe γ] : Format := d.fmt

/-- Model of the Yaml wrapper struct. -/
structure Yaml (γ : Type) where
  val : γ

/-- Model of the Describe impl for Yaml: forwards to the inner type. -/
instance instDescribeYaml (γ : Type) [d : Describe γ] : Describe (Yaml γ) :=
  ⟨d.fmt⟩

/-- Model of the Describe impl for Result: forwards to the success variant;
the error type is unconstrained, its shape is not exposed. -/
instance instDescribeExcept (γ ε : Type) [d : Describe γ] :
    Describe (Except ε γ) :=
  ⟨d.fmt⟩

/-- Whether an Except value is a success. -/
def isOkE {ε α : Type} : Except ε α → Bool
  | .ok _ => true
  | .error _ => false

/-- Concrete intermediate step used in run scenarios. -/
def stepFix : AgentIntermediateStep :=
  ⟨⟨"t".data, "i".data, "l".data⟩, some "o".data⟩

/-- Agent with both early-stopping bounds set, as in the spec scenario. -/
def agentBothBounds : Agent := Agent.new ⟨some 2, some 1000⟩

/-- Text in which a lower-priority finish marker occurs earlier than a
higher-priority one. -/
def c2Text : List Char := "So the final answer is: X Final answer: Y".data

/-- Text in which the intermediate-answer marker occurs before the
follow-up marker. -/
def c5Text : List Char :=
  "Intermediate Answer: Paris\nFollow up: what city?".data

/-- A tool that echoes its message. -/
def echoTool : DynTool Unit := ⟨fun msg => .ok msg⟩

/-- A tool that returns a constant message. -/
def constTool : DynTool Unit := ⟨fun _ => .ok "done".data⟩

/-- A toolbox holding the echo tool, registered through add_tool. -/
def tbWithEcho : Toolbox Unit := (Toolbox.empty Unit).add_tool echoTool

/-- A concrete describable type used to instantiate the Describe laws. -/
structure Query where
  q : List Char

instance instDescribeQuery : Describe Query :=
  ⟨⟨[⟨"q".data, "the question".data⟩]⟩⟩

/-- The scratchpad fold appends one chunk per step to the accumulator. -/
lemma build_agent_scratchpad_acc (a : Agent)
    (steps : List AgentIntermediateStep) :
    ∀ acc : List Char,
      steps.foldl
        (fun scratchpad s =>
          (scratchpad ++ s.action.log) ++
            ('\n' :: (a.obsMark ++ (s.observation.getD []) ++ '\n' :: a.llmMark)))
        acc
      = acc ++ (steps.map (scratchChunk a)).flatten := by
  induction steps with
  | nil => intro acc; simp
  | cons s rest ih =>
    intro acc
    simp only [List.foldl_cons, List.map_cons, List.flatten, ih, scratchChunk]
    simp [List.append_assoc]

/-- C9: build_agent_scratchpad is a pure deterministic function of the
transcript: two builds from the same steps are byte-identical, and the
result is the concatenation, in order, of each step's action log followed
by the observation line made of the observation marker, the observation
text and the llm marker. -/
theorem c9_scratchpad_deterministic (a : Agent)
    (steps : List AgentIntermediateStep) :
    a.build_agent_scratchpad steps = a.build_agent_scratchpad steps
    ∧ a.build_agent_scratchpad steps = (steps.map (scratchChunk a)).flatten := by
  refine ⟨rfl, ?_⟩
  unfold Agent.build_agent_scratchpad
  simpa using build_agent_scratchpad_acc a steps []

/-- C10: Describe forwarding as equations on Formats: the Yaml wrapper
forwards to the inner type, and a Result type forwards to its success
variant. -/
theorem c10_describe_forwarding (γ ε : Type) [Describe γ] :
    describeOf (Yaml γ) = describeOf γ
    ∧ describeOf (Except ε γ) = describeOf γ :=
  ⟨rfl, rfl⟩

/-- C10 witness: the forwarding equations at a concrete described type. -/
theorem c10_describe_forwarding_witness :
    describeOf (Yaml Query) = describeOf Query
    ∧ describeOf (Except Unit Query) = describeOf Query :=
  c10_describe_forwarding Query Unit

/-- C3: invoke on a toolbox holding one tool (stored under the constant key
abc). The not-found outcome (some none, that is Option None in the source)
arises exactly when lookup fails; but when the tool is found, the source
reaches the todo stubs after calling the tool, modelled as a panic (none),
instead of returning the tool's text. -/
theorem c3_invoke_stub :
    tbWithEcho.invoke "abc".data "hi".data = none
    ∧ tbWithEcho.invoke "X".data "hi".data = some none
    ∧ (∀ (ε : Type) (tb : Toolbox ε) (name msg : List Char),
        tb.invoke name msg = some none ↔ lookupKV name tb.tools = none) := by
  refine ⟨rfl, rfl, ?_⟩
  intro ε tb name msg
  unfold Toolbox.invoke
  cases hl : lookupKV name tb.tools with
  | none => simp
  | some tool => cases hc : tool.call msg <;> simp [hc]

/-- A fold of add_tool calls leaves at most the last tool, keyed by the
constant string abc. -/
lemma foldl_add_tool_tools (ε : Type) (ts : List (DynTool ε)) :
    (ts.foldl Toolbox.add_tool (Toolbox.empty ε)).tools
      = match ts.getLast? with
        | none => []
        | some t => [("abc".data, t)] := by
  induction ts using List.reverseRecOn with
  | nil => rfl
  | append_singleton ts t ih =>
    rw [List.foldl_append]
    simp only [List.foldl_cons, List.foldl_nil, List.getLast?_concat]
    rw [Toolbox.add_tool, ih]
    cases ts.getLast? <;> simp [insertKV]

/-- C4: every add_tool call inserts under the constant key abc, so the map
holds at most one entry, the most recently added tool, and lookup under any
other name finds nothing. -/
theorem c4_add_tool_const_key (ε : Type) (ts : List (DynTool ε)) :
    (∀ t, ts.getLast? = some t →
        (ts.foldl Toolbox.add_tool (Toolbox.empty ε)).tools = [("abc".data, t)])
    ∧ (ts.foldl Toolbox.add_tool (Toolbox.empty ε)).tools.length ≤ 1
    ∧ (∀ name, name ≠ "abc".data →
        lookupKV name (ts.foldl Toolbox.add_tool (Toolbox.empty ε)).tools = none) := by
  have h := foldl_add_tool_tools ε ts
  refine ⟨?_, ?_, ?_⟩
  · intro t ht; rw [h, ht]
  · rw [h]; cases ts.getLast? <;> simp
  · intro name hname
    rw [h]; cases ts.getLast? <;> simp [lookupKV, hname]

/-- C4 witness: after adding the echo tool then the constant tool, the map
is exactly the constant tool under abc, and lookup under the name bash
finds nothing. -/
theorem c4_add_tool_const_key_witness :
    ([echoTool, constTool].foldl Toolbox.add_tool (Toolbox.empty Unit)).tools
      = [("abc".data, constTool)]
    ∧ lookupKV "bash".data
        ([echoTool, constTool].foldl Toolbox.add_tool (Toolbox.empty Unit)).tools
      = none :=
  ⟨(c4_add_tool_const_key Unit [echoTool, constTool]).1 constTool rfl,
   (c4_add_tool_const_key Unit [echoTool, constTool]).2.2 "bash".data (by decide)⟩

/-- The find_map scan returns a marker preceded only by markers absent from
the text, at the index of its first occurrence. -/
lemma firstFoundMarker_append (text m : List Char) (idx : Nat)
    (suf : List (List Char)) :
    ∀ pre : List (List Char), (∀ m₀ ∈ pre, findSub m₀ text = none) →
      findSub m text = some idx →
      firstFoundMarker (pre ++ m :: suf) text = some (idx, m) := by
  intro pre
  induction pre with
  | nil =>
    intro _ hm
    simp only [List.nil_append, firstFoundMarker, hm]
  | cons m₀ rest ih =>
    intro hpre hm
    have h₀ : findSub m₀ text = none := hpre m₀ (by simp)
    simp only [List.cons_append, firstFoundMarker, h₀]
    exact ih (fun m₁ h₁ => hpre m₁ (by simp [h₁])) hm

/-- C2 counterexample: on text where the second-priority marker occurs at
position 0 and the first-priority marker occurs later, parse delimits with
the later, first-priority occurrence (output Y), not with the occurrence
of earliest position in the text, which would leave everything after
index 23. -/
theorem c2_counterexample :
    ConversationalOutputParser.default.parse c2Text
      = some (.ok (.Finish
          { return_values := [("output".data, "Y".data)], log := c2Text }))
    ∧ earliestMarker ConversationalOutputParser.default.acceptableFinishMarkers
        c2Text
      = some (0, "So the final answer is:".data)
    ∧ trimChars (c2Text.drop (0 + "So the final answer is:".data.length))
      ≠ "Y".data := by
  refine ⟨rfl, by decide, by decide⟩

/-- C2 amended: when the text has no follow-up marker, parse returns Finish
delimited by the first finish marker in priority order that occurs in the
text (all earlier-priority markers being absent), taken at its earliest
occurrence; the output value is everything after that marker, trimmed, and
the log is the whole text. -/
theorem c2_finish_extraction (p : ConversationalOutputParser)
    (text m : List Char) (idx : Nat) (pre suf : List (List Char))
    (hf : findSub p.followupMarker text = none)
    (hsplit : p.acceptableFinishMarkers = pre ++ m :: suf)
    (hpre : ∀ m₀ ∈ pre, findSub m₀ text = none)
    (hm : findSub m text = some idx) :
    p.parse text = some (.ok (.Finish
      { return_values := [("output".data, trimChars (text.drop (idx + m.length)))]
        log := text })) := by
  have hfound : firstFoundMarker p.acceptableFinishMarkers text = some (idx, m) := by
    rw [hsplit]; exact firstFoundMarker_append text m idx suf pre hpre hm
  unfold ConversationalOutputParser.parse
  rw [hf, hfound]

/-- C2 amended witness: the finish-extraction example of the spec, through
the amended theorem. -/
theorem c2_finish_extraction_witness :
    ConversationalOutputParser.default.parse
        "blah blah So the final answer is: 42".data
      = some (.ok (.Finish
          { return_values := [("output".data, "42".data)]
            log := "blah blah So the final answer is: 42".data })) := by
  have h := c2_finish_extraction ConversationalOutputParser.default
    "blah blah So the final answer is: 42".data
    "So the final answer is:".data 10
    ["Final answer:".data] ["So the final answer could be:".data]
    (by decide) rfl (by decide) (by decide)
  exact h.trans rfl

/-- C5 counterexample: a text containing both the follow-up marker and the
intermediate-answer marker, with the latter first; the source underflows on
the usize subtraction (modelled as none) instead of returning an Action. -/
theorem c5_counterexample :
    ConversationalOutputParser.default.parse c5Text = none
    ∧ findSub ConversationalOutputParser.default.followupMarker c5Text
      = some 27
    ∧ findSub ConversationalOutputParser.default.intermediateAnswerMarker c5Text
      = some 0 := by
  refine ⟨rfl, by decide, by decide⟩

/-- C5 amended: for a text containing both markers, when the
intermediate-answer marker occurs at or after the end of the first
follow-up marker occurrence, parse returns an Action whose tool is
Intermediate Answer, whose input is the text between the two markers
trimmed, and whose log is the text up to the intermediate-answer marker;
when the intermediate-answer marker occurs before that point the index
subtraction underflows and no Action is produced. -/
theorem c5_followup_action (p : ConversationalOutputParser)
    (text : List Char) (fi ii : Nat)
    (hf : findSub p.followupMarker text = some fi)
    (hi : findSub p.intermediateAnswerMarker text = some ii) :
    (fi + p.followupMarker.length ≤ ii →
      p.parse text = some (.ok (.Action
        { tool := "Intermediate Answer".data
          tool_input := trimChars ((text.drop (fi + p.followupMarker.length)).take
            (ii - (fi + p.followupMarker.length)))
          log := text.take ii })))
    ∧ (ii < fi + p.followupMarker.length → p.parse text = none) := by
  constructor
  · intro hord
    unfold ConversationalOutputParser.parse
    rw [hf, hi]
    simp [hord]
  · intro hlt
    unfold ConversationalOutputParser.parse
    rw [hf, hi]
    simp [Nat.not_le.mpr hlt, Nat.not_le_of_lt hlt]

/-- C5 amended witness: the parser-precedence example of the spec, through
the amended theorem. -/
theorem c5_followup_action_witness :
    ConversationalOutputParser.default.parse
        "Follow up: what city?\nIntermediate Answer: Paris\nFinal answer: Paris".data
      = some (.ok (.Action
          { tool := "Intermediate Answer".data
            tool_input := "what city?".data
            log := "Follow up: what city?\n".data })) := by
  have h := (c5_followup_action ConversationalOutputParser.default
    "Follow up: what city?\nIntermediate Answer: Paris\nFinal answer: Paris".data
    0 22 (by decide) (by decide)).1 (by decide)
  exact h.trans rfl

/-- C6: parse fails with ParserError carrying the input text in exactly two
cases: the follow-up marker is present but the intermediate-answer marker
is absent, or the text has neither the follow-up marker nor any acceptable
finish marker; illustrated on the follow-up-only example of the spec. -/
theorem c6_parser_error_cases :
    (∀ (p : ConversationalOutputParser) (text : List Char),
      p.parse text = some (.error ⟨text⟩) ↔
        ((findSub p.followupMarker text).isSome = true
          ∧ findSub p.intermediateAnswerMarker text = none)
        ∨ (findSub p.followupMarker text = none
          ∧ firstFoundMarker p.acceptableFinishMarkers text = none))
    ∧ ConversationalOutputParser.default.parse "Follow up: what city?".data
      = some (.error ⟨"Follow up: what city?".data⟩) := by
  refine ⟨?_, rfl⟩
  intro p text
  unfold ConversationalOutputParser.parse
  cases hf : findSub p.followupMarker text with
  | none =>
    cases hm : firstFoundMarker p.acceptableFinishMarkers text with
    | none => simp
    | some im => rcases im with ⟨idx, m⟩; simp
  | some fi =>
    cases hi : findSub p.intermediateAnswerMarker text with
    | none => simp
    | some ii =>
      by_cases hord : fi + p.followupMarker.length ≤ ii <;> simp [hord]

/-- C1 counterexample: with max_iterations 2 and max_time_elapsed_seconds
1000, an all-Action run that has taken 5 seconds invokes a 3rd planning
round (round count 3) and fails with RuntimeExceeded carrying
iterations_elapsed 3, not 2 as claimed. -/
theorem c1_counterexample :
    agentBothBounds.run (fun _ => .step stepFix) (fun _ => (5 : ℚ)) 10
      = (some (.err (.runtimeExceeded 5 3)), 3)
    ∧ agentBothBounds.run (fun _ => .step stepFix) (fun _ => (5 : ℚ)) 10
      ≠ (some (.err (.runtimeExceeded 5 2)), 2) := by
  constructor
  · rfl
  · intro h
    have h3 : (3 : Nat) = 2 := congrArg Prod.snd h
    exact absurd h3 (by decide)

/-- C1 amended: with both bounds unset the loop always continues; in
general the loop continues exactly when every configured bound b satisfies
elapsed less than or equal to b, so the loop still runs a round when the
count equals max_iterations; hence with max_iterations 2 an all-Action run
invokes three planning rounds and fails with RuntimeExceeded carrying
iterations_elapsed 3. -/
theorem c1_early_stopping :
    (∀ (i : Nat) (t : ℚ), (Agent.new ⟨none, none⟩).should_continue i t = true)
    ∧ (∀ (a : Agent) (i : Nat) (t : ℚ),
        a.should_continue i t
          = ((a.early_stopping_config.max_iterations.all fun mi => decide (i ≤ mi))
              && (a.early_stopping_config.max_time_elapsed_seconds.all fun mt =>
                    decide (t ≤ mt))))
    ∧ agentBothBounds.run (fun _ => .step stepFix) (fun _ => (5 : ℚ)) 10
      = (some (.err (.runtimeExceeded 5 3)), 3) := by
  refine ⟨fun i t => rfl, ?_, rfl⟩
  intro a i t
  unfold Agent.should_continue
  cases hmi : a.early_stopping_config.max_iterations with
  | none =>
    cases hmt : a.early_stopping_config.max_time_elapsed_seconds <;>
      simp [Option.all, ge_iff_le]
  | some mi =>
    cases hmt : a.early_stopping_config.max_time_elapsed_seconds <;>
      simp [Option.all, ge_iff_le]

/-- C7: if any extractor fails, the handler short-circuits: its result is
Ok of the failure text no matter which wrapped function it carries (the
function is not consulted); and at the tool boundary, Tool::call for a
HandlerService is Ok text for both outcomes of the underlying handler. -/
theorem c7_extraction_absorbed (σ α ε ρ ρ₂ : Type)
    (extractors : List (Extractor σ α))
    (f : List α → Except ε ρ) (g : List α → Except ε ρ₂)
    (toStrR : ρ → List Char) (toStrR₂ : ρ₂ → List Char)
    (toStrE : ε → List Char) (state : σ) (msg e : List Char)
    (hfail : extractAll extractors msg state = .error e) :
    handlerCall extractors f toStrR msg state = .ok e
    ∧ handlerCall extractors g toStrR₂ msg state = .ok e
    ∧ (∀ (f₀ : List α → Except ε ρ) (toStr₀ : ρ → List Char)
        (state₀ : σ) (msg₀ : List Char),
        isOkE (handlerServiceCall extractors f₀ toStr₀ toStrE state₀ msg₀)
          = true) := by
  refine ⟨?_, ?_, ?_⟩
  · unfold handlerCall; rw [hfail]
  · unfold handlerCall; rw [hfail]
  · intro f₀ toStr₀ state₀ msg₀
    unfold handlerServiceCall
    cases handlerCall extractors f₀ toStr₀ msg₀ state₀ <;> rfl

/-- C7 witness: a failing extractor yields Ok of the failure text for two
different wrapped functions, and the service-level call is Ok. -/
theorem c7_extraction_absorbed_witness :
    handlerCall [fun _ _ => (.error "boom".data : Except (List Char) Nat)]
        (fun _ => (.ok 0 : Except Unit Nat)) (fun _ => "zero".data)
        "req".data () = .ok "boom".data
    ∧ handlerCall [fun _ _ => (.error "boom".data : Except (List Char) Nat)]
        (fun _ => (.ok [] : Except Unit (List Char))) (fun v => v)
        "req".data () = .ok "boom".data
    ∧ isOkE (handlerServiceCall
        [fun _ _ => (.error "boom".data : Except (List Char) Nat)]
        (fun _ => (.ok 0 : Except Unit Nat)) (fun _ => "zero".data)
        (fun _ => "err".data) () "req".data) = true := by
  have h := c7_extraction_absorbed Unit Nat Unit Nat (List Char)
    [fun _ _ => (.error "boom".data : Except (List Char) Nat)]
    (fun _ => (.ok 0 : Except Unit Nat))
    (fun _ => (.ok [] : Except Unit (List Char)))
    (fun _ => "zero".data) (fun v => v)
    (fun _ => "err".data) () "req".data "boom".data rfl
  exact ⟨h.1, h.2.1, h.2.2 _ _ () "req".data⟩

/-- C8: after successful extraction, the piped handler applies the
secondary function to exactly the primary function's result: on primary
failure the error value is what the secondary receives, on primary success
the success value, never the other way round. -/
theorem c8_pipe_routing (σ α ε₁ β ε₂ ρ₂ : Type)
    (extractors : List (Extractor σ α))
    (fn1 : List α → Except ε₁ β) (fn2 : Except ε₁ β → Except ε₂ ρ₂)
    (toStrR : ρ₂ → List Char) (msg : List Char) (state : σ)
    (args : List α) (hok : extractAll extractors msg state = .ok args) :
    pipedHandlerCall extractors fn1 fn2 toStrR msg state
      = (fn2 (fn1 args)).map toStrR
    ∧ (∀ e₁, fn1 args = .error e₁ →
        pipedHandlerCall extractors fn1 fn2 toStrR msg state
          = (fn2 (.error e₁)).map toStrR)
    ∧ (∀ b, fn1 args = .ok b →
        pipedHandlerCall extractors fn1 fn2 toStrR msg state
          = (fn2 (.ok b)).map toStrR) := by
  have hmain : pipedHandlerCall extractors fn1 fn2 toStrR msg state
      = (fn2 (fn1 args)).map toStrR := by
    unfold pipedHandlerCall
    rw [hok]
    cases hfn : fn2 (fn1 args) <;> simp [hfn, Except.map]
  exact ⟨hmain,
    fun e₁ he => by rw [hmain, he],
    fun b hb => by rw [hmain, hb]⟩

/-- C8 witness: a failing primary is routed into the secondary, which
recovers it into text; the result is the recovered text. -/
theorem c8_pipe_routing_witness :
    pipedHandlerCall [fun _ _ => (.ok 7 : Except (List Char) Nat)]
        (fun _ => (.error "E".data : Except (List Char) Nat))
        (fun r => match r with
          | .error e => (.ok ("recovered ".data ++ e) : Except Unit (List Char))
          | .ok _ => .ok "no error".data)
        (fun v => v) "req".data ()
      = .ok "recovered E".data := by
  have h := (c8_pipe_routing Unit Nat (List Char) Nat Unit (List Char)
    [fun _ _ => (.ok 7 : Except (List Char) Nat)]
    (fun _ => (.error "E".data : Except (List Char) Nat))
    (fun r => match r with
      | .error e => (.ok ("recovered ".data ++ e) : Except Unit (List Char))
      | .ok _ => .ok "no error".data)
    (fun v => v) "req".data () [7] rfl).2.1 "E".data rfl
  exact h.trans rfl

end LlmChain
